import Mathlib

/-!
Verification development for the `staticserver` Go package: a small static
asset server with pluggable stat/open backends, directory-to-index
resolution, custom 404/500 error handlers and no directory listing.

Paths are modelled as Lean `String`s (slash-separated, as all backends in
the package use forward-slash paths).  The path-cleaning layer embeds Go's
`path.Clean` / `filepath.Clean` (identical on slash-separated paths) as a
segment-stack algorithm over the character list of the string, and
`filepath.Join` as concatenation followed by cleaning, exactly as in Go.
-/

/-- Split a character list into its `/`-separated segments.
`splitSlash "a/b"` is `[['a'], ['b']]`; the result is never empty and a
leading or trailing `/` contributes an empty segment. -/
def splitSlash : List Char → List (List Char)
  | [] => [[]]
  | c :: rest =>
    let r := splitSlash rest
    if c = '/' then [] :: r else (c :: r.headD []) :: r.tail

/-- Rejoin segments with `/` separators (inverse of `splitSlash` on
nonempty, slash-free segments). -/
def joinSlash : List (List Char) → List Char
  | [] => []
  | [s] => s
  | s :: t :: rest => s ++ '/' :: joinSlash (t :: rest)

/-- One step of Go `path.Clean`'s element loop, acting on a stack of kept
segments (most recent first): empty and `.` segments are dropped, `..`
pops a kept segment when possible (and is itself kept only on unrooted
paths with nothing left to pop), any other segment is kept. -/
def cleanStep (rooted : Bool) (st : List (List Char)) (s : List Char) : List (List Char) :=
  if s = [] ∨ s = ['.'] then st
  else if s = ['.', '.'] then
    match st with
    | [] => if rooted then [] else [['.', '.']]
    | t :: ts => if t = ['.', '.'] then ['.', '.'] :: t :: ts else ts
  else s :: st

/-- The segments kept by Go `path.Clean`, in path order. -/
def cleanStack (rooted : Bool) (segs : List (List Char)) : List (List Char) :=
  (segs.foldl (cleanStep rooted) []).reverse

/-- Reassemble the cleaned path from its kept segments, as Go
`path.Clean` does: rooted paths get a leading `/`, and an empty unrooted
result becomes `.`. -/
def renderClean (rooted : Bool) (st : List (List Char)) : List Char :=
  if rooted then '/' :: joinSlash st
  else if st = [] then ['.'] else joinSlash st

/-- Go `path.Clean` over a character list. -/
def filepathCleanL : List Char → List Char
  | [] => ['.']
  | c :: rest => renderClean (c == '/') (cleanStack (c == '/') (splitSlash (c :: rest)))

/-- Go `filepath.Clean` on slash-separated paths (identical to
`path.Clean`; there are no volume names on the paths this package
handles). -/
def filepathClean (p : String) : String := String.mk (filepathCleanL p.data)

/-- Go `filepath.Join` of two elements: empty elements are skipped and the
slash-joined remainder is cleaned, exactly as in Go's implementation. -/
def filepathJoin (a b : String) : String :=
  if a = "" then (if b = "" then "" else filepathClean b)
  else if b = "" then filepathClean (String.mk (a.data ++ ['/']))
  else filepathClean (String.mk (a.data ++ '/' :: b.data))

/-! ## Data model of the server -/

/-- The slice of `os.FileInfo` the server consults: name, modification
time, directory flag, size (supplied by the backend's stat function). -/
structure FileInfo where
  name : String
  modTime : Int
  isDir : Bool
  size : Nat
deriving DecidableEq

/-- `StatFunc`: signature of `os.LStat`-like lookups; `none` models the
error return. -/
abbrev StatFunc := String → Option FileInfo

/-- A seekable reader as the server observes it: its content, and whether
it additionally implements `Close` (capability check, not type name). -/
structure Reader where
  content : String
  closable : Bool
deriving DecidableEq

/-- `ReaderFunc`: signature of `os.Open`-like opens; `none` models the
error return. -/
abbrev ReaderFunc := String → Option Reader

/-- An HTTP request, reduced to the only field the server reads:
`r.URL.Path`. -/
structure Request where
  urlPath : String
deriving DecidableEq

/-- An HTTP response as observed by the client: status code and body
(range/conditional headers are delegated to `http.ServeContent` and out of
scope). -/
structure Response where
  code : Nat
  body : String
deriving DecidableEq

/-- `http.HandlerFunc`, writing a response for a request. -/
abbrev HandlerFunc := Request → Response

/-- An error-handler table, modelling Go's `map[int]http.HandlerFunc`
(lookup-equivalent association list; a `nil` map is the empty table). -/
abbrev EHTable := List (Nat × HandlerFunc)

/-- Result of handling one request.  `nilHandlerPanic` models Go calling a
`nil` `http.HandlerFunc` fetched from a map that lacks the status code. -/
inductive Outcome where
  | ok (resp : Response)
  | nilHandlerPanic
deriving DecidableEq

/-- Observable side effects of handling one request, in order: backend
stat calls, backend open calls, the `http.ServeContent` dispatch, the
`Close()` call on a closable reader, and diagnostic log lines. -/
inductive Event where
  | statCall (path : String)
  | openCall (path : String)
  | serveContent (name : String) (modTime : Int)
  | closeCall
  | logLine (msg : String)
deriving DecidableEq

/-- Map lookup on an `EHTable` (Go: `m[code]`, `ok` iff `some`). -/
def lookupHandler (hs : EHTable) (code : Nat) : Option HandlerFunc :=
  match hs with
  | [] => none
  | e :: rest => if e.fst = code then some e.snd else lookupHandler rest code

/-- Go `ss.errorHandlers[code](w, r)`: fetch and call the handler; a
missing entry yields Go's nil-function panic. -/
def invokeHandler (hs : EHTable) (code : Nat) (r : Request) : Outcome :=
  match lookupHandler hs code with
  | some h => Outcome.ok (h r)
  | none => Outcome.nilHandlerPanic

/-- The default 404 handler: `http.Error(w, "Not Found", 404)`. -/
def def404 : HandlerFunc := fun _ => { code := 404, body := "Not Found\n" }

/-- The default 500 handler: `http.Error(w, "Internal Server Error", 500)`. -/
def def500 : HandlerFunc := fun _ => { code := 500, body := "Internal Server Error\n" }

/-- The package-level `defaultErrorHandlers` map. -/
def defaultErrorHandlers : EHTable := [(404, def404), (500, def500)]

/-- `setupErrorHandlers`: on a nil argument return the defaults; otherwise
build a table over the default codes, preferring the caller's handler per
code. -/
def setupErrorHandlers (m : Option EHTable) : EHTable :=
  match m with
  | none => defaultErrorHandlers
  | some mm =>
    defaultErrorHandlers.map (fun e =>
      match lookupHandler mm e.fst with
      | some custom => (e.fst, custom)
      | none => e)

/-- The `StaticServer` struct: stat and open functions, error-handler
table, and whether a diagnostic logger is set (`logger != nil`). -/
structure StaticServer where
  stat : StatFunc
  readerfn : ReaderFunc
  errorHandlers : EHTable
  logger : Bool

/-- `VFSStaticServer`: bind a backend's stat/open pair, applying
`setupErrorHandlers` to the caller's table. -/
def VFSStaticServer (stat : StatFunc) (readerfn : ReaderFunc)
    (errorHandlers : Option EHTable) (logger : Bool) : StaticServer :=
  { stat := stat, readerfn := readerfn,
    errorHandlers := setupErrorHandlers errorHandlers, logger := logger }

/-- `RawStaticServer`: bind caller-supplied stat/open functions, storing
the caller's error-handler table verbatim (a nil table stays empty — no
defaults are applied). -/
def RawStaticServer (stat : StatFunc) (readerfn : ReaderFunc)
    (errorHandlers : Option EHTable) (logger : Bool) : StaticServer :=
  { stat := stat, readerfn := readerfn,
    errorHandlers := errorHandlers.getD [], logger := logger }

/-- Emit one diagnostic log line when the logger is set. -/
def logIf (b : Bool) (msg : String) : List Event :=
  if b then [Event.logLine msg] else []

/-- `http.ServeContent` for a plain GET that selects the whole content:
status 200 with the reader's bytes.  (Byte ranges, conditional requests
and content-type sniffing are the primitive's concern, not modelled.) -/
def serveContent (_name : String) (_modTime : Int) (rds : Reader) : Response :=
  { code := 200, body := rds.content }

/-- Lines 187–209 of `ServeHTTP`: open a reader on the resolved path;
on error invoke the 500 handler, otherwise dispatch to
`http.ServeContent` and close the reader if it is closable. -/
def serveFile (ss : StaticServer) (r : Request) (reqpath : String) (info : FileInfo) :
    Outcome × List Event :=
  match ss.readerfn reqpath with
  | none =>
    (invokeHandler ss.errorHandlers 500 r,
     [Event.openCall reqpath]
       ++ logIf ss.logger ("Error obtaining a reader to requested path. Returning http.StatusInternalServerError:" ++ reqpath))
  | some rds =>
    (Outcome.ok (serveContent info.name info.modTime rds),
     [Event.openCall reqpath]
       ++ logIf ss.logger ("Calling ServeContent for:" ++ reqpath)
       ++ [Event.serveContent info.name info.modTime]
       ++ (if rds.closable then [Event.closeCall] else []))

/-- `StaticServer.ServeHTTP`: clean the request path with a root-slash
prefix, stat it, resolve a directory to its `index.html` (404 when the
index is absent or itself a directory), then open and serve.  Returns the
outcome and the ordered trace of observable events. -/
def StaticServer.ServeHTTP (ss : StaticServer) (r : Request) : Outcome × List Event :=
  let ev0 := logIf ss.logger ("Request for :" ++ r.urlPath)
  let reqpath := filepathClean ("/" ++ r.urlPath)
  match ss.stat reqpath with
  | none =>
    (invokeHandler ss.errorHandlers 404 r,
     ev0 ++ [Event.statCall reqpath]
       ++ logIf ss.logger ("Error finding requested path. Returning http.StatusNotFound:" ++ reqpath))
  | some info =>
    if info.isDir then
      let ev1 := ev0 ++ [Event.statCall reqpath]
        ++ logIf ss.logger ("The requested path was a directory. Trying to find index.html file in it:" ++ reqpath)
      let reqpath2 := filepathJoin reqpath "index.html"
      match ss.stat reqpath2 with
      | none =>
        (invokeHandler ss.errorHandlers 404 r,
         ev1 ++ [Event.statCall reqpath2]
           ++ logIf ss.logger ("index.html was not found. Returning http.StatusNotFound:" ++ reqpath2))
      | some info2 =>
        if info2.isDir then
          (invokeHandler ss.errorHandlers 404 r,
           ev1 ++ [Event.statCall reqpath2]
             ++ logIf ss.logger ("index.html is a folder. Returning http.StatusNotFound:" ++ reqpath2))
        else
          let t := serveFile ss r reqpath2 info2
          (t.fst, ev1 ++ [Event.statCall reqpath2] ++ t.snd)
    else
      let t := serveFile ss r reqpath info
      (t.fst, ev0 ++ [Event.statCall reqpath] ++ t.snd)

/-! ## The mapfs backend (`MapSS`)

The `godoc/vfs/mapfs` backend is an external collaborator of this package;
it is modelled from its documented behaviour: map keys are slash-separated
paths with no leading slash; `Lstat` strips one leading slash, returns a
file info (zero mod time, content length as size) on an exact key match, a
directory info when the path is a proper ancestor of some key (the root
`""` is an ancestor of every key), and fails otherwise; `Open` succeeds
exactly on file keys and hands back a closable reader (mapfs wraps the
string reader in a `nopCloser`, which implements `Close`). -/

/-- Strip one leading `/` (mapfs's `filename`). -/
def trimLeadSlash (p : String) : String :=
  match p.data with
  | '/' :: rest => String.mk rest
  | _ => p

/-- Lookup in a path→content map (Go: `fs[filename(p)]`). -/
def mapLookup (m : List (String × String)) (k : String) : Option String :=
  match m with
  | [] => none
  | e :: rest => if e.fst = k then some e.snd else mapLookup rest k

/-- Go `path.Base`: the last nonempty segment; `/` for all-slash paths,
`.` for the empty path. -/
def baseName (p : String) : String :=
  if p = "" then "."
  else
    match ((splitSlash p.data).filter (fun s => !s.isEmpty)).getLast? with
    | some s => String.mk s
    | none => "/"

/-- Is `d` a proper slash-ancestor of key `k`?  The root (empty) path is
an ancestor of every key. -/
def isAncestor (d k : String) : Bool :=
  d = "" || (String.mk (d.data ++ ['/'])).data.isPrefixOf k.data

/-- mapfs `Lstat`. -/
def mapfsStat (m : List (String × String)) (p : String) : Option FileInfo :=
  let fn := trimLeadSlash p
  match mapLookup m fn with
  | some b => some { name := baseName p, modTime := 0, isDir := false, size := b.length }
  | none =>
    if m.any (fun e => isAncestor fn e.fst) then
      some { name := baseName p, modTime := 0, isDir := true, size := 0 }
    else none

/-- mapfs `Open`. -/
def mapfsOpen (m : List (String × String)) (p : String) : Option Reader :=
  match mapLookup m (trimLeadSlash p) with
  | some b => some { content := b, closable := true }
  | none => none

/-- `MapSS`: a `StaticServer` over a path→content map, via the mapfs
virtual file system. -/
def MapSS (m : List (String × String)) (errorHandlers : Option EHTable)
    (logger : Bool) : StaticServer :=
  VFSStaticServer (mapfsStat m) (mapfsOpen m) errorHandlers logger

/-! ## The second `StaticServer` variant

The repository's second implementation stores an OS root directory and
resolves every request path against it by
`filepath.Join(fs.root, filepath.Clean("/"+r.URL.Path))`. -/

/-- The path the second variant stats and serves (its `reqpath`,
line 246). -/
def resolvePath2 (root : String) (urlPath : String) : String :=
  filepathJoin root (filepathClean ("/" ++ urlPath))

/-! ## Resolution summary

`resolve` recomputes which concrete asset path (and stat result) the
`ServeHTTP` of the first variant ends up serving: `none` exactly on its
404 paths. -/

/-- The path/info pair `ServeHTTP` opens and serves, if any. -/
def resolve (stat : StatFunc) (p : String) : Option (String × FileInfo) :=
  match stat p with
  | none => none
  | some info =>
    if info.isDir then
      match stat (filepathJoin p "index.html") with
      | none => none
      | some info2 =>
        if info2.isDir then none else some (filepathJoin p "index.html", info2)
    else some (p, info)

/-- Number of backend open calls in a trace. -/
def openCount (evs : List Event) : Nat :=
  evs.countP (fun e => match e with | Event.openCall _ => true | _ => false)

/-- Number of backend stat calls in a trace. -/
def statCount (evs : List Event) : Nat :=
  evs.countP (fun e => match e with | Event.statCall _ => true | _ => false)

/-- Number of `http.ServeContent` dispatches in a trace. -/
def serveCount (evs : List Event) : Nat :=
  evs.countP (fun e => match e with | Event.serveContent _ _ => true | _ => false)

/-- A segment kept on a rooted clean stack: nonempty, not `.`, not `..`,
and free of separators. -/
def GoodSeg (s : List Char) : Prop :=
  s ≠ [] ∧ s ≠ ['.'] ∧ s ≠ ['.', '.'] ∧ '/' ∉ s

/-- The backend map of the repository's `TestIndex` test. -/
def testIndexMap : List (String × String) :=
  [("index.html", "root index file"), ("sub/index.html", "sub index file")]

/-- The custom 404 handler of the repository's `TestErrorHandlers` test. -/
def customNotFound : HandlerFunc :=
  fun _ => { code := 404, body := "Custom Not Found Handler" }

/-! ## Lemmas on the path layer -/

theorem splitSlash_ne_nil (l : List Char) : splitSlash l ≠ [] := by
  cases l with
  | nil => simp [splitSlash]
  | cons c rest =>
    simp only [splitSlash]
    by_cases h : c = '/' <;> simp [h]

theorem noSlash_of_mem_splitSlash (l : List Char) :
    ∀ s ∈ splitSlash l, '/' ∉ s := by
  induction l with
  | nil => intro s hs; simp [splitSlash] at hs; simp [hs]
  | cons c rest ih =>
    intro s hs
    simp only [splitSlash] at hs
    by_cases h : c = '/'
    · simp [h] at hs
      rcases hs with hs | hs
      · simp [hs]
      · exact ih s hs
    · simp [h] at hs
      obtain ⟨s0, ss, hsplit⟩ := List.exists_cons_of_ne_nil (splitSlash_ne_nil rest)
      rw [hsplit] at hs
      simp at hs
      rcases hs with hs | hs
      · subst hs
        intro hmem
        rcases List.mem_cons.mp hmem with h1 | h1
        · exact h h1.symm
        · exact ih s0 (by rw [hsplit]; exact List.mem_cons_self _ _) h1
      · exact ih s (by rw [hsplit]; exact List.mem_cons_of_mem _ hs)

theorem splitSlash_append (a b : List Char) :
    splitSlash (a ++ '/' :: b) = splitSlash a ++ splitSlash b := by
  induction a with
  | nil => simp [splitSlash]
  | cons c a' ih =>
    simp only [List.cons_append, splitSlash, List.append_eq]
    rw [ih]
    by_cases h : c = '/'
    · simp [h]
    · obtain ⟨s0, ss, hsplit⟩ := List.exists_cons_of_ne_nil (splitSlash_ne_nil a')
      rw [hsplit]
      simp [h]

theorem splitSlash_of_noSlash (s : List Char) (h : '/' ∉ s) :
    splitSlash s = [s] := by
  induction s with
  | nil => rfl
  | cons c rest ih =>
    have hc : c ≠ '/' := fun hc => h (by simp [hc])
    have hr : '/' ∉ rest := fun hr => h (List.mem_cons_of_mem _ hr)
    simp [splitSlash, hc, ih hr]

theorem splitSlash_joinSlash (st : List (List Char))
    (h : ∀ s ∈ st, '/' ∉ s) :
    splitSlash (joinSlash st) = if st = [] then [[]] else st := by
  induction st with
  | nil => rfl
  | cons s rest ih =>
    cases rest with
    | nil =>
      simp [joinSlash, splitSlash_of_noSlash s (h s (by simp))]
    | cons t rest' =>
      have hs : '/' ∉ s := h s (by simp)
      have hrest : ∀ u ∈ t :: rest', '/' ∉ u := fun u hu => h u (List.mem_cons_of_mem _ hu)
      simp only [joinSlash, splitSlash_append, splitSlash_of_noSlash s hs, ih hrest]
      simp

theorem cleanStep_nil_seg (b : Bool) (st : List (List Char)) :
    cleanStep b st [] = st := by
  simp [cleanStep]

theorem cleanStep_push (b : Bool) (s : List Char) (st₀ : List (List Char))
    (h : GoodSeg s) : cleanStep b st₀ s = s :: st₀ := by
  have h1 : ¬(s = [] ∨ s = ['.']) := by
    rintro (h' | h')
    · exact h.1 h'
    · exact h.2.1 h'
  simp [cleanStep, h1, h.2.2.1]

theorem good_foldl_cleanStep (segs : List (List Char)) :
    ∀ st, (∀ s ∈ st, GoodSeg s) → (∀ s ∈ segs, '/' ∉ s) →
      ∀ s ∈ segs.foldl (cleanStep true) st, GoodSeg s := by
  induction segs with
  | nil => intro st hst _ s hs; exact hst s hs
  | cons seg rest ih =>
    intro st hst hsl s hs
    simp only [List.foldl_cons] at hs
    refine ih (cleanStep true st seg) ?_
      (fun u hu => hsl u (List.mem_cons_of_mem _ hu)) s hs
    intro u hu
    unfold cleanStep at hu
    by_cases h1 : seg = [] ∨ seg = ['.']
    · rw [if_pos h1] at hu; exact hst u hu
    · rw [if_neg h1] at hu
      by_cases h2 : seg = ['.', '.']
      · rw [if_pos h2] at hu
        cases st with
        | nil => simp at hu
        | cons t ts =>
          have ht : GoodSeg t := hst t (by simp)
          simp only [ht.2.2.1, if_false] at hu
          exact hst u (List.mem_cons_of_mem _ hu)
      · rw [if_neg h2] at hu
        rcases List.mem_cons.mp hu with h | h
        · have hgood : GoodSeg seg := by
            push_neg at h1
            exact ⟨h1.1, h1.2, h2, hsl seg (List.mem_cons_self _ _)⟩
          rw [h]; exact hgood
        · exact hst u h

theorem good_cleanStack (segs : List (List Char)) (hsl : ∀ s ∈ segs, '/' ∉ s) :
    ∀ s ∈ cleanStack true segs, GoodSeg s := by
  intro s hs
  rw [cleanStack, List.mem_reverse] at hs
  exact good_foldl_cleanStep segs [] (by simp) hsl s hs

theorem foldl_cleanStep_of_good (b : Bool) (st : List (List Char))
    (h : ∀ s ∈ st, GoodSeg s) :
    ∀ st₀, List.foldl (cleanStep b) st₀ st = st.reverse ++ st₀ := by
  induction st with
  | nil => intro st₀; simp
  | cons s rest ih =>
    intro st₀
    simp only [List.foldl_cons, cleanStep_push b s st₀ (h s (by simp))]
    rw [ih (fun u hu => h u (List.mem_cons_of_mem _ hu)) (s :: st₀)]
    simp

theorem joinSlash_append_exists (A B : List (List Char)) :
    ∃ t, joinSlash A ++ t = joinSlash (A ++ B) := by
  induction A with
  | nil => exact ⟨joinSlash B, by simp [joinSlash]⟩
  | cons a A' ih =>
    cases A' with
    | nil =>
      cases B with
      | nil => exact ⟨[], by simp⟩
      | cons b B' => exact ⟨'/' :: joinSlash (b :: B'), by simp [joinSlash]⟩
    | cons a2 A'' =>
      obtain ⟨t, ht⟩ := ih
      refine ⟨t, ?_⟩
      simp only [List.cons_append, List.append_eq, joinSlash] at ht ⊢
      rw [← ht]
      simp

theorem filepathCleanL_rooted (q : List Char) :
    filepathCleanL ('/' :: q) =
      '/' :: joinSlash (cleanStack true (splitSlash ('/' :: q))) := by
  simp [filepathCleanL, renderClean]

theorem cleanedReq_data (p : String) :
    (filepathClean ("/" ++ p)).data =
      '/' :: joinSlash (cleanStack true (splitSlash ('/' :: p.data))) := by
  unfold filepathClean
  rw [show ("/" ++ p).data = '/' :: p.data from by rw [String.data_append]; rfl]
  rw [show (String.mk (filepathCleanL ('/' :: p.data))).data
        = filepathCleanL ('/' :: p.data) from rfl]
  exact filepathCleanL_rooted p.data

theorem good_cleanStack_req (p : String) :
    ∀ s ∈ cleanStack true (splitSlash ('/' :: p.data)), GoodSeg s :=
  good_cleanStack _ (noSlash_of_mem_splitSlash _)

theorem splitSlash_cleanedReq (p : String) :
    splitSlash ((filepathClean ("/" ++ p)).data) =
      [] :: splitSlash (joinSlash (cleanStack true (splitSlash ('/' :: p.data)))) := by
  rw [cleanedReq_data]
  simp [splitSlash]

theorem foldl_cleanStep_snoc_stack (b : Bool) (st : List (List Char))
    (hgood : ∀ s ∈ st, GoodSeg s) (S0 : List (List Char)) :
    List.foldl (cleanStep b) S0 ([] :: splitSlash (joinSlash st)) =
      st.reverse ++ S0 := by
  have hsl : ∀ s ∈ st, '/' ∉ s := fun s hs => (hgood s hs).2.2.2
  rw [splitSlash_joinSlash st hsl]
  by_cases hst0 : st = []
  · subst hst0
    simp [cleanStep_nil_seg]
  · rw [if_neg hst0]
    simp only [List.foldl_cons, cleanStep_nil_seg]
    exact foldl_cleanStep_of_good b st hgood S0

theorem cleanStack_decompose (b : Bool) (R : List Char)
    (st : List (List Char)) (hgood : ∀ s ∈ st, GoodSeg s) :
    cleanStack b (splitSlash (R ++ '/' :: '/' :: joinSlash st)) =
      cleanStack b (splitSlash R) ++ st := by
  rw [splitSlash_append]
  have h2 : splitSlash ('/' :: joinSlash st) = [] :: splitSlash (joinSlash st) := by
    simp [splitSlash]
  rw [h2, cleanStack, List.foldl_append, foldl_cleanStep_snoc_stack b st hgood]
  rw [List.reverse_append, List.reverse_reverse, cleanStack]

theorem resolvePath2_under_root (root p : String)
    (hclean : filepathClean root = root) (hne : root ≠ ".") :
    ∃ t, (resolvePath2 root p).data = root.data ++ t := by
  have hR : root.data ≠ [] := by
    intro h
    have hroot : root = "" := String.ext h
    rw [hroot] at hclean
    exact absurd hclean (by decide)
  obtain ⟨c, R', hRc⟩ := List.exists_cons_of_ne_nil hR
  have hroot_ne : root ≠ "" := by
    intro h
    apply hR
    rw [h]
  have hinner : (filepathClean ("/" ++ p)).data =
      '/' :: joinSlash (cleanStack true (splitSlash ('/' :: p.data))) :=
    cleanedReq_data p
  have hgood := good_cleanStack_req p
  have hb_ne : filepathClean ("/" ++ p) ≠ "" := by
    intro h
    have hd := congrArg String.data h
    rw [hinner] at hd
    exact List.cons_ne_nil _ _ hd
  have hjoin : resolvePath2 root p =
      filepathClean (String.mk (root.data ++ '/' :: '/' ::
        joinSlash (cleanStack true (splitSlash ('/' :: p.data))))) := by
    unfold resolvePath2 filepathJoin
    rw [if_neg hroot_ne, if_neg hb_ne, hinner]
  have hdata : (resolvePath2 root p).data =
      filepathCleanL (root.data ++ '/' :: '/' ::
        joinSlash (cleanStack true (splitSlash ('/' :: p.data)))) := by
    rw [hjoin]; rfl
  have houter : filepathCleanL (root.data ++ '/' :: '/' ::
      joinSlash (cleanStack true (splitSlash ('/' :: p.data))))
      = renderClean (c == '/') (cleanStack (c == '/') (splitSlash root.data)
          ++ cleanStack true (splitSlash ('/' :: p.data))) := by
    rw [hRc, List.cons_append]
    show renderClean (c == '/') (cleanStack (c == '/')
        (splitSlash (c :: (R' ++ '/' :: '/' ::
          joinSlash (cleanStack true (splitSlash ('/' :: p.data))))))) = _
    rw [show (c :: (R' ++ '/' :: '/' ::
          joinSlash (cleanStack true (splitSlash ('/' :: p.data)))) : List Char)
          = (c :: R') ++ '/' :: '/' ::
            joinSlash (cleanStack true (splitSlash ('/' :: p.data))) from rfl]
    rw [cleanStack_decompose (c == '/') (c :: R') _ hgood, ← hRc]
  have hcleanL : filepathCleanL root.data = root.data := congrArg String.data hclean
  have hrootrender : renderClean (c == '/')
      (cleanStack (c == '/') (splitSlash root.data)) = root.data := by
    conv_rhs => rw [← hcleanL]
    rw [hRc]
    rfl
  cases hb : (c == '/') with
  | true =>
    rw [hb] at houter hrootrender
    obtain ⟨t, ht⟩ := joinSlash_append_exists (cleanStack true (splitSlash root.data))
      (cleanStack true (splitSlash ('/' :: p.data)))
    refine ⟨t, ?_⟩
    rw [hdata, houter]
    conv_rhs => rw [← hrootrender]
    simp only [renderClean, if_true]
    rw [← ht]
    simp
  | false =>
    rw [hb] at houter hrootrender
    by_cases hS : cleanStack false (splitSlash root.data) = []
    · rw [hS] at hrootrender
      have hdot : root.data = ['.'] := by rw [← hrootrender]; rfl
      exact absurd (String.ext hdot) hne
    · obtain ⟨t, ht⟩ := joinSlash_append_exists (cleanStack false (splitSlash root.data))
        (cleanStack true (splitSlash ('/' :: p.data)))
      refine ⟨t, ?_⟩
      rw [hdata, houter]
      conv_rhs => rw [← hrootrender]
      have hSst : cleanStack false (splitSlash root.data)
          ++ cleanStack true (splitSlash ('/' :: p.data)) ≠ [] := by
        intro h
        exact hS (List.append_eq_nil.mp h).1
      simp only [renderClean, Bool.false_eq_true, if_false, hS, hSst, ite_false]
      rw [← ht]

/-! ## Lemmas on the request resolver -/

theorem ServeHTTP_fst_eq (ss : StaticServer) (r : Request) :
    (ss.ServeHTTP r).fst =
      match resolve ss.stat (filepathClean ("/" ++ r.urlPath)) with
      | none => invokeHandler ss.errorHandlers 404 r
      | some (q, info) =>
        match ss.readerfn q with
        | none => invokeHandler ss.errorHandlers 500 r
        | some rds => Outcome.ok (serveContent info.name info.modTime rds) := by
  unfold StaticServer.ServeHTTP resolve serveFile
  cases h1 : ss.stat (filepathClean ("/" ++ r.urlPath)) with
  | none => simp [h1]
  | some info =>
    cases hd : info.isDir with
    | false =>
      simp only [h1, hd, Bool.false_eq_true, if_false]
      cases h2 : ss.readerfn (filepathClean ("/" ++ r.urlPath)) <;> simp [h2]
    | true =>
      simp only [h1, hd, if_true]
      cases h2 : ss.stat (filepathJoin (filepathClean ("/" ++ r.urlPath)) "index.html") with
      | none => simp [h2]
      | some info2 =>
        cases hd2 : info2.isDir with
        | false =>
          simp only [h2, hd2, Bool.false_eq_true, if_false]
          cases h3 : ss.readerfn
            (filepathJoin (filepathClean ("/" ++ r.urlPath)) "index.html") <;> simp [h3]
        | true => simp [h2, hd2]

theorem ServeHTTP_snd_statFail (ss : StaticServer) (r : Request)
    (h1 : ss.stat (filepathClean ("/" ++ r.urlPath)) = none) :
    (ss.ServeHTTP r).snd =
      logIf ss.logger ("Request for :" ++ r.urlPath)
        ++ [Event.statCall (filepathClean ("/" ++ r.urlPath))]
        ++ logIf ss.logger
          ("Error finding requested path. Returning http.StatusNotFound:"
            ++ filepathClean ("/" ++ r.urlPath)) := by
  simp only [StaticServer.ServeHTTP]
  rw [h1]

theorem ServeHTTP_snd_indexFail (ss : StaticServer) (r : Request) (info : FileInfo)
    (h1 : ss.stat (filepathClean ("/" ++ r.urlPath)) = some info)
    (hd : info.isDir = true)
    (h2 : ss.stat (filepathJoin (filepathClean ("/" ++ r.urlPath)) "index.html") = none) :
    (ss.ServeHTTP r).snd =
      logIf ss.logger ("Request for :" ++ r.urlPath)
        ++ [Event.statCall (filepathClean ("/" ++ r.urlPath))]
        ++ logIf ss.logger
          ("The requested path was a directory. Trying to find index.html file in it:"
            ++ filepathClean ("/" ++ r.urlPath))
        ++ [Event.statCall (filepathJoin (filepathClean ("/" ++ r.urlPath)) "index.html")]
        ++ logIf ss.logger
          ("index.html was not found. Returning http.StatusNotFound:"
            ++ filepathJoin (filepathClean ("/" ++ r.urlPath)) "index.html") := by
  simp only [StaticServer.ServeHTTP]
  rw [h1]
  simp [hd, h2]

theorem ServeHTTP_snd_indexDir (ss : StaticServer) (r : Request)
    (info info2 : FileInfo)
    (h1 : ss.stat (filepathClean ("/" ++ r.urlPath)) = some info)
    (hd : info.isDir = true)
    (h2 : ss.stat (filepathJoin (filepathClean ("/" ++ r.urlPath)) "index.html") = some info2)
    (hd2 : info2.isDir = true) :
    (ss.ServeHTTP r).snd =
      logIf ss.logger ("Request for :" ++ r.urlPath)
        ++ [Event.statCall (filepathClean ("/" ++ r.urlPath))]
        ++ logIf ss.logger
          ("The requested path was a directory. Trying to find index.html file in it:"
            ++ filepathClean ("/" ++ r.urlPath))
        ++ [Event.statCall (filepathJoin (filepathClean ("/" ++ r.urlPath)) "index.html")]
        ++ logIf ss.logger
          ("index.html is a folder. Returning http.StatusNotFound:"
            ++ filepathJoin (filepathClean ("/" ++ r.urlPath)) "index.html") := by
  simp only [StaticServer.ServeHTTP]
  rw [h1]
  simp [hd, h2, hd2]

theorem ServeHTTP_snd_file (ss : StaticServer) (r : Request) (info : FileInfo)
    (h1 : ss.stat (filepathClean ("/" ++ r.urlPath)) = some info)
    (hd : info.isDir = false) :
    (ss.ServeHTTP r).snd =
      logIf ss.logger ("Request for :" ++ r.urlPath)
        ++ [Event.statCall (filepathClean ("/" ++ r.urlPath))]
        ++ (serveFile ss r (filepathClean ("/" ++ r.urlPath)) info).snd := by
  simp only [StaticServer.ServeHTTP]
  rw [h1]
  simp [hd]

theorem ServeHTTP_snd_dirFile (ss : StaticServer) (r : Request)
    (info info2 : FileInfo)
    (h1 : ss.stat (filepathClean ("/" ++ r.urlPath)) = some info)
    (hd : info.isDir = true)
    (h2 : ss.stat (filepathJoin (filepathClean ("/" ++ r.urlPath)) "index.html") = some info2)
    (hd2 : info2.isDir = false) :
    (ss.ServeHTTP r).snd =
      logIf ss.logger ("Request for :" ++ r.urlPath)
        ++ [Event.statCall (filepathClean ("/" ++ r.urlPath))]
        ++ logIf ss.logger
          ("The requested path was a directory. Trying to find index.html file in it:"
            ++ filepathClean ("/" ++ r.urlPath))
        ++ [Event.statCall (filepathJoin (filepathClean ("/" ++ r.urlPath)) "index.html")]
        ++ (serveFile ss r (filepathJoin (filepathClean ("/" ++ r.urlPath)) "index.html") info2).snd := by
  simp only [StaticServer.ServeHTTP]
  rw [h1]
  simp [hd, h2, hd2]

theorem serveFile_snd_openFail (ss : StaticServer) (r : Request) (q : String)
    (info : FileInfo) (h : ss.readerfn q = none) :
    (serveFile ss r q info).snd =
      [Event.openCall q]
        ++ logIf ss.logger
          ("Error obtaining a reader to requested path. Returning http.StatusInternalServerError:" ++ q) := by
  simp only [serveFile]
  rw [h]

theorem serveFile_snd_served (ss : StaticServer) (r : Request) (q : String)
    (info : FileInfo) (rds : Reader) (h : ss.readerfn q = some rds) :
    (serveFile ss r q info).snd =
      [Event.openCall q]
        ++ logIf ss.logger ("Calling ServeContent for:" ++ q)
        ++ [Event.serveContent info.name info.modTime]
        ++ (if rds.closable then [Event.closeCall] else []) := by
  simp only [serveFile]
  rw [h]

theorem openCount_append (a b : List Event) :
    openCount (a ++ b) = openCount a + openCount b :=
  List.countP_append _ _ _

theorem statCount_append (a b : List Event) :
    statCount (a ++ b) = statCount a + statCount b :=
  List.countP_append _ _ _

theorem serveCount_append (a b : List Event) :
    serveCount (a ++ b) = serveCount a + serveCount b :=
  List.countP_append _ _ _

theorem openCount_logIf (b : Bool) (m : String) : openCount (logIf b m) = 0 := by
  cases b <;> rfl

theorem statCount_logIf (b : Bool) (m : String) : statCount (logIf b m) = 0 := by
  cases b <;> rfl

theorem serveCount_logIf (b : Bool) (m : String) : serveCount (logIf b m) = 0 := by
  cases b <;> rfl

theorem resolve_none_of_statFail (stat : StatFunc) (p : String)
    (h : stat p = none) : resolve stat p = none := by
  unfold resolve
  rw [h]

theorem resolve_some_cases (stat : StatFunc) (p q : String) (info : FileInfo)
    (h : resolve stat p = some (q, info)) :
    (stat p = some info ∧ info.isDir = false ∧ q = p) ∨
    (∃ info0, stat p = some info0 ∧ info0.isDir = true ∧
      stat (filepathJoin p "index.html") = some info ∧ info.isDir = false ∧
      q = filepathJoin p "index.html") := by
  unfold resolve at h
  cases h0 : stat p with
  | none => rw [h0] at h; simp at h
  | some info0 =>
    rw [h0] at h
    cases hd : info0.isDir with
    | false =>
      simp only [hd, Bool.false_eq_true, if_false, Option.some.injEq, Prod.mk.injEq] at h
      left
      exact ⟨by rw [h.2], by rw [← h.2]; exact hd, h.1.symm⟩
    | true =>
      simp only [hd, if_true] at h
      cases h2 : stat (filepathJoin p "index.html") with
      | none => rw [h2] at h; simp at h
      | some info2 =>
        rw [h2] at h
        cases hd2 : info2.isDir with
        | true => simp [hd2] at h
        | false =>
          simp only [hd2, Bool.false_eq_true, if_false, Option.some.injEq,
            Prod.mk.injEq] at h
          right
          refine ⟨info0, rfl, hd, ?_, ?_, h.1.symm⟩
          · exact congrArg some h.2
          · rw [← h.2]; exact hd2

theorem ServeHTTP_fst_statFail (ss : StaticServer) (r : Request)
    (h1 : ss.stat (filepathClean ("/" ++ r.urlPath)) = none) :
    (ss.ServeHTTP r).fst = invokeHandler ss.errorHandlers 404 r := by
  rw [ServeHTTP_fst_eq, resolve_none_of_statFail ss.stat _ h1]

theorem ServeHTTP_fst_resolveFail (ss : StaticServer) (r : Request)
    (h : resolve ss.stat (filepathClean ("/" ++ r.urlPath)) = none) :
    (ss.ServeHTTP r).fst = invokeHandler ss.errorHandlers 404 r := by
  rw [ServeHTTP_fst_eq, h]

theorem ServeHTTP_fst_openFail (ss : StaticServer) (r : Request)
    (q : String) (info : FileInfo)
    (hres : resolve ss.stat (filepathClean ("/" ++ r.urlPath)) = some (q, info))
    (hopen : ss.readerfn q = none) :
    (ss.ServeHTTP r).fst = invokeHandler ss.errorHandlers 500 r := by
  rw [ServeHTTP_fst_eq, hres]
  simp [hopen]

theorem ServeHTTP_fst_served (ss : StaticServer) (r : Request)
    (q : String) (info : FileInfo) (rds : Reader)
    (hres : resolve ss.stat (filepathClean ("/" ++ r.urlPath)) = some (q, info))
    (hopen : ss.readerfn q = some rds) :
    (ss.ServeHTTP r).fst = Outcome.ok (serveContent info.name info.modTime rds) := by
  rw [ServeHTTP_fst_eq, hres]
  simp [hopen]

theorem lookup_setup_404 (mo : Option EHTable) :
    lookupHandler (setupErrorHandlers mo) 404 =
      some ((mo.bind (fun m => lookupHandler m 404)).getD def404) := by
  cases mo with
  | none => rfl
  | some m =>
    cases hm : lookupHandler m 404 <;>
      simp [setupErrorHandlers, defaultErrorHandlers, lookupHandler, hm]

theorem lookup_setup_500 (mo : Option EHTable) :
    lookupHandler (setupErrorHandlers mo) 500 =
      some ((mo.bind (fun m => lookupHandler m 500)).getD def500) := by
  cases mo with
  | none => rfl
  | some m =>
    cases hm4 : lookupHandler m 404 <;> cases hm5 : lookupHandler m 500 <;>
      simp [setupErrorHandlers, defaultErrorHandlers, lookupHandler, hm4, hm5]

theorem openCount_statCall (p : String) : openCount [Event.statCall p] = 0 := rfl

theorem openCount_openCall (p : String) : openCount [Event.openCall p] = 1 := rfl

theorem statCount_statCall (p : String) : statCount [Event.statCall p] = 1 := rfl

theorem statCount_openCall (p : String) : statCount [Event.openCall p] = 0 := rfl

theorem serveCount_statCall (p : String) : serveCount [Event.statCall p] = 0 := rfl

theorem serveCount_openCall (p : String) : serveCount [Event.openCall p] = 0 := rfl

theorem openCount_serveEvent (n : String) (t : Int) :
    openCount [Event.serveContent n t] = 0 := rfl

theorem serveCount_serveEvent (n : String) (t : Int) :
    serveCount [Event.serveContent n t] = 1 := rfl

theorem statCount_serveEvent (n : String) (t : Int) :
    statCount [Event.serveContent n t] = 0 := rfl

theorem openCount_closeIf (b : Bool) :
    openCount (if b then [Event.closeCall] else []) = 0 := by cases b <;> rfl

theorem statCount_closeIf (b : Bool) :
    statCount (if b then [Event.closeCall] else []) = 0 := by cases b <;> rfl

theorem serveCount_closeIf (b : Bool) :
    serveCount (if b then [Event.closeCall] else []) = 0 := by cases b <;> rfl

theorem openCount_cons_statCall (p : String) (l : List Event) :
    openCount (Event.statCall p :: l) = openCount l := by
  simp [openCount, List.countP_cons]

theorem openCount_cons_openCall (p : String) (l : List Event) :
    openCount (Event.openCall p :: l) = openCount l + 1 := by
  simp [openCount, List.countP_cons]

theorem openCount_cons_serveEvt (n : String) (t : Int) (l : List Event) :
    openCount (Event.serveContent n t :: l) = openCount l := by
  simp [openCount, List.countP_cons]

theorem openCount_cons_closeEvt (l : List Event) :
    openCount (Event.closeCall :: l) = openCount l := by
  simp [openCount, List.countP_cons]

theorem openCount_cons_logEvt (m : String) (l : List Event) :
    openCount (Event.logLine m :: l) = openCount l := by
  simp [openCount, List.countP_cons]

theorem statCount_cons_statCall (p : String) (l : List Event) :
    statCount (Event.statCall p :: l) = statCount l + 1 := by
  simp [statCount, List.countP_cons]

theorem statCount_cons_openCall (p : String) (l : List Event) :
    statCount (Event.openCall p :: l) = statCount l := by
  simp [statCount, List.countP_cons]

theorem statCount_cons_serveEvt (n : String) (t : Int) (l : List Event) :
    statCount (Event.serveContent n t :: l) = statCount l := by
  simp [statCount, List.countP_cons]

theorem statCount_cons_closeEvt (l : List Event) :
    statCount (Event.closeCall :: l) = statCount l := by
  simp [statCount, List.countP_cons]

theorem statCount_cons_logEvt (m : String) (l : List Event) :
    statCount (Event.logLine m :: l) = statCount l := by
  simp [statCount, List.countP_cons]

theorem serveCount_cons_statCall (p : String) (l : List Event) :
    serveCount (Event.statCall p :: l) = serveCount l := by
  simp [serveCount, List.countP_cons]

theorem serveCount_cons_openCall (p : String) (l : List Event) :
    serveCount (Event.openCall p :: l) = serveCount l := by
  simp [serveCount, List.countP_cons]

theorem serveCount_cons_serveEvt (n : String) (t : Int) (l : List Event) :
    serveCount (Event.serveContent n t :: l) = serveCount l + 1 := by
  simp [serveCount, List.countP_cons]

theorem serveCount_cons_closeEvt (l : List Event) :
    serveCount (Event.closeCall :: l) = serveCount l := by
  simp [serveCount, List.countP_cons]

theorem serveCount_cons_logEvt (m : String) (l : List Event) :
    serveCount (Event.logLine m :: l) = serveCount l := by
  simp [serveCount, List.countP_cons]

theorem openCount_nil : openCount [] = 0 := rfl

theorem statCount_nil : statCount [] = 0 := rfl

theorem serveCount_nil : serveCount [] = 0 := rfl

theorem openCount_serveFile (ss : StaticServer) (r : Request) (q : String)
    (info : FileInfo) : openCount (serveFile ss r q info).snd = 1 := by
  cases h : ss.readerfn q with
  | none =>
    rw [serveFile_snd_openFail ss r q info h]
    simp [openCount_append, openCount_logIf, openCount_statCall, openCount_openCall, openCount_serveEvent, openCount_closeIf, openCount_cons_statCall, openCount_cons_openCall, openCount_cons_serveEvt, openCount_cons_closeEvt, openCount_cons_logEvt, openCount_nil]
  | some rds =>
    rw [serveFile_snd_served ss r q info rds h]
    simp [openCount_append, openCount_logIf, openCount_statCall, openCount_openCall, openCount_serveEvent, openCount_closeIf, openCount_cons_statCall, openCount_cons_openCall, openCount_cons_serveEvt, openCount_cons_closeEvt, openCount_cons_logEvt, openCount_nil]

theorem openCount_ServeHTTP (ss : StaticServer) (r : Request) :
    openCount (ss.ServeHTTP r).snd =
      if (resolve ss.stat (filepathClean ("/" ++ r.urlPath))).isSome then 1
      else 0 := by
  cases h1 : ss.stat (filepathClean ("/" ++ r.urlPath)) with
  | none =>
    rw [ServeHTTP_snd_statFail ss r h1, resolve_none_of_statFail ss.stat _ h1]
    simp [openCount_append, openCount_logIf, openCount_statCall, openCount_openCall, openCount_serveEvent, openCount_closeIf, openCount_cons_statCall, openCount_cons_openCall, openCount_cons_serveEvt, openCount_cons_closeEvt, openCount_cons_logEvt, openCount_nil]
  | some info =>
    cases hd : info.isDir with
    | false =>
      rw [ServeHTTP_snd_file ss r info h1 hd]
      have hres : resolve ss.stat (filepathClean ("/" ++ r.urlPath))
          = some (filepathClean ("/" ++ r.urlPath), info) := by
        unfold resolve
        rw [h1]
        simp [hd]
      rw [hres]
      simp [openCount_append, openCount_logIf, openCount_statCall, openCount_openCall, openCount_serveEvent, openCount_closeIf, openCount_cons_statCall, openCount_cons_openCall, openCount_cons_serveEvt, openCount_cons_closeEvt, openCount_cons_logEvt, openCount_nil, openCount_serveFile]
    | true =>
      cases h2 : ss.stat (filepathJoin (filepathClean ("/" ++ r.urlPath)) "index.html") with
      | none =>
        rw [ServeHTTP_snd_indexFail ss r info h1 hd h2]
        have hres : resolve ss.stat (filepathClean ("/" ++ r.urlPath)) = none := by
          unfold resolve
          rw [h1]
          simp [hd, h2]
        rw [hres]
        simp [openCount_append, openCount_logIf, openCount_statCall, openCount_openCall, openCount_serveEvent, openCount_closeIf, openCount_cons_statCall, openCount_cons_openCall, openCount_cons_serveEvt, openCount_cons_closeEvt, openCount_cons_logEvt, openCount_nil]
      | some info2 =>
        cases hd2 : info2.isDir with
        | true =>
          rw [ServeHTTP_snd_indexDir ss r info info2 h1 hd h2 hd2]
          have hres : resolve ss.stat (filepathClean ("/" ++ r.urlPath)) = none := by
            unfold resolve
            rw [h1]
            simp [hd, h2, hd2]
          rw [hres]
          simp [openCount_append, openCount_logIf, openCount_statCall, openCount_openCall, openCount_serveEvent, openCount_closeIf, openCount_cons_statCall, openCount_cons_openCall, openCount_cons_serveEvt, openCount_cons_closeEvt, openCount_cons_logEvt, openCount_nil]
        | false =>
          rw [ServeHTTP_snd_dirFile ss r info info2 h1 hd h2 hd2]
          have hres : resolve ss.stat (filepathClean ("/" ++ r.urlPath))
              = some (filepathJoin (filepathClean ("/" ++ r.urlPath)) "index.html",
                  info2) := by
            unfold resolve
            rw [h1]
            simp [hd, h2, hd2]
          rw [hres]
          simp [openCount_append, openCount_logIf, openCount_statCall, openCount_openCall, openCount_serveEvent, openCount_closeIf, openCount_cons_statCall, openCount_cons_openCall, openCount_cons_serveEvt, openCount_cons_closeEvt, openCount_cons_logEvt, openCount_nil, openCount_serveFile]

/-! ## Claim theorems -/

/-- C1 (amended): for every request path, the resolver's cleaned path
(`filepath.Clean("/" + r.URL.Path)`) starts with the root separator — so
it never begins with a `..` segment — and contains no `..` segment at all;
and for every backend root that is itself a cleaned path other than `.`,
the second variant's resolved path `filepath.Join(root, cleaned)` has the
root as a prefix.  (The original claim, with no condition on the root,
fails for the root `.`; see the counterexample.) -/
theorem claim_C1_amended (p root : String)
    (hclean : filepathClean root = root) (hne : root ≠ ".") :
    (∃ rest, (filepathClean ("/" ++ p)).data = '/' :: rest) ∧
    (∀ s ∈ splitSlash ((filepathClean ("/" ++ p)).data), s ≠ ['.', '.']) ∧
    (∃ t, (resolvePath2 root p).data = root.data ++ t) := by
  refine ⟨⟨_, cleanedReq_data p⟩, ?_, resolvePath2_under_root root p hclean hne⟩
  intro s hs
  rw [splitSlash_cleanedReq p] at hs
  rcases List.mem_cons.mp hs with h | h
  · rw [h]; decide
  · have hg := good_cleanStack_req p
    rw [splitSlash_joinSlash _ (fun u hu => (hg u hu).2.2.2)] at h
    by_cases hst : cleanStack true (splitSlash ('/' :: p.data)) = []
    · rw [if_pos hst] at h
      simp only [List.mem_singleton] at h
      rw [h]; decide
    · rw [if_neg hst] at h
      exact (hg s h).2.2.1

/-- C1 counterexample: with backend root `.` (a directory, accepted by
`NewStaticServer`), the request path `a` resolves to `a`, which does not
have the root `.` as a prefix — refuting the unconditional prefix claim. -/
theorem claim_C1_cex : ¬ ∃ t, (resolvePath2 "." "a").data = ".".data ++ t := by
  rintro ⟨t, ht⟩
  rw [show (resolvePath2 "." "a").data = ['a'] from by decide] at ht
  rw [show (".".data : List Char) = ['.'] from rfl, List.singleton_append] at ht
  injection ht with h2 h3
  exact absurd h2 (by decide)

/-- C1 witness: the root `/tmp` is cleaned and not `.`, and a
traversal-laden request stays under it. -/
theorem claim_C1_witness :
    filepathClean "/tmp" = "/tmp" ∧
    (∃ t, (resolvePath2 "/tmp" "../../etc/passwd").data = "/tmp".data ++ t) :=
  ⟨by decide,
   (claim_C1_amended "../../etc/passwd" "/tmp" (by decide) (by decide)).2.2⟩

/-- C2: when the cleaned path stats as a directory, the server re-stats
the path with `index.html` appended, and if that index entry is a
non-directory whose reader opens, its content is served with status 200;
in particular the `TestIndex` map serves `/` and `/sub/` as specified. -/
theorem claim_C2_index :
    (∀ (ss : StaticServer) (r : Request) (info info2 : FileInfo) (rds : Reader),
      ss.stat (filepathClean ("/" ++ r.urlPath)) = some info →
      info.isDir = true →
      ss.stat (filepathJoin (filepathClean ("/" ++ r.urlPath)) "index.html")
        = some info2 →
      info2.isDir = false →
      ss.readerfn (filepathJoin (filepathClean ("/" ++ r.urlPath)) "index.html")
        = some rds →
      (ss.ServeHTTP r).fst = Outcome.ok { code := 200, body := rds.content } ∧
      Event.statCall (filepathJoin (filepathClean ("/" ++ r.urlPath)) "index.html")
        ∈ (ss.ServeHTTP r).snd) ∧
    ((MapSS testIndexMap none false).ServeHTTP { urlPath := "/" }).fst
      = Outcome.ok { code := 200, body := "root index file" } ∧
    ((MapSS testIndexMap none false).ServeHTTP { urlPath := "/sub/" }).fst
      = Outcome.ok { code := 200, body := "sub index file" } := by
  refine ⟨?_, by decide, by decide⟩
  intro ss r info info2 rds h1 hd h2 hd2 hopen
  have hres : resolve ss.stat (filepathClean ("/" ++ r.urlPath))
      = some (filepathJoin (filepathClean ("/" ++ r.urlPath)) "index.html", info2) := by
    unfold resolve
    rw [h1]
    simp [hd, h2, hd2]
  refine ⟨ServeHTTP_fst_served ss r _ info2 rds hres hopen, ?_⟩
  rw [ServeHTTP_snd_dirFile ss r info info2 h1 hd h2 hd2]
  simp

/-- C2 witness: a directory request resolved through its `index.html`. -/
theorem claim_C2_witness :
    ((MapSS [("docs/index.html", "DOCS")] none false).ServeHTTP
        { urlPath := "/docs" }).fst
      = Outcome.ok { code := 200, body := "DOCS" } ∧
    Event.statCall (filepathJoin (filepathClean ("/" ++ "/docs")) "index.html")
      ∈ ((MapSS [("docs/index.html", "DOCS")] none false).ServeHTTP
          { urlPath := "/docs" }).snd :=
  claim_C2_index.1 (MapSS [("docs/index.html", "DOCS")] none false)
    { urlPath := "/docs" }
    { name := "docs", modTime := 0, isDir := true, size := 0 }
    { name := "index.html", modTime := 0, isDir := false, size := 4 }
    { content := "DOCS", closable := true }
    (by decide) (by decide) (by decide) (by decide) (by decide)

/-- C3: a failed stat of the cleaned path, or a failed re-stat of the
appended index document, invokes the handler registered for 404 and ends
the request with no further stat, open or serve activity; and every
request ends in exactly one of: the 404 handler, the 500 handler, or a
successful `http.ServeContent` dispatch. -/
theorem claim_C3_notFound (ss : StaticServer) (r : Request) :
    (ss.stat (filepathClean ("/" ++ r.urlPath)) = none →
      (ss.ServeHTTP r).fst = invokeHandler ss.errorHandlers 404 r ∧
      statCount (ss.ServeHTTP r).snd = 1 ∧
      openCount (ss.ServeHTTP r).snd = 0 ∧
      serveCount (ss.ServeHTTP r).snd = 0) ∧
    (∀ info : FileInfo, ss.stat (filepathClean ("/" ++ r.urlPath)) = some info →
      info.isDir = true →
      ss.stat (filepathJoin (filepathClean ("/" ++ r.urlPath)) "index.html") = none →
      (ss.ServeHTTP r).fst = invokeHandler ss.errorHandlers 404 r ∧
      statCount (ss.ServeHTTP r).snd = 2 ∧
      openCount (ss.ServeHTTP r).snd = 0 ∧
      serveCount (ss.ServeHTTP r).snd = 0) ∧
    ((ss.ServeHTTP r).fst = invokeHandler ss.errorHandlers 404 r ∨
     (ss.ServeHTTP r).fst = invokeHandler ss.errorHandlers 500 r ∨
     ∃ n t rds, (ss.ServeHTTP r).fst = Outcome.ok (serveContent n t rds)) := by
  refine ⟨?_, ?_, ?_⟩
  · intro h1
    refine ⟨ServeHTTP_fst_statFail ss r h1, ?_, ?_, ?_⟩ <;>
      rw [ServeHTTP_snd_statFail ss r h1] <;>
      simp [statCount_append, statCount_logIf, statCount_statCall,
        statCount_cons_statCall, statCount_cons_openCall, statCount_cons_serveEvt,
        statCount_cons_closeEvt, statCount_cons_logEvt, statCount_nil,
        openCount_append, openCount_logIf, openCount_statCall,
        openCount_cons_statCall, openCount_cons_openCall, openCount_cons_serveEvt,
        openCount_cons_closeEvt, openCount_cons_logEvt, openCount_nil,
        serveCount_append, serveCount_logIf, serveCount_statCall,
        serveCount_cons_statCall, serveCount_cons_openCall, serveCount_cons_serveEvt,
        serveCount_cons_closeEvt, serveCount_cons_logEvt, serveCount_nil]
  · intro info h1 hd h2
    have hres : resolve ss.stat (filepathClean ("/" ++ r.urlPath)) = none := by
      unfold resolve
      rw [h1]
      simp [hd, h2]
    refine ⟨ServeHTTP_fst_resolveFail ss r hres, ?_, ?_, ?_⟩ <;>
      rw [ServeHTTP_snd_indexFail ss r info h1 hd h2] <;>
      simp [statCount_append, statCount_logIf, statCount_statCall,
        statCount_cons_statCall, statCount_cons_openCall, statCount_cons_serveEvt,
        statCount_cons_closeEvt, statCount_cons_logEvt, statCount_nil,
        openCount_append, openCount_logIf, openCount_statCall,
        openCount_cons_statCall, openCount_cons_openCall, openCount_cons_serveEvt,
        openCount_cons_closeEvt, openCount_cons_logEvt, openCount_nil,
        serveCount_append, serveCount_logIf, serveCount_statCall,
        serveCount_cons_statCall, serveCount_cons_openCall, serveCount_cons_serveEvt,
        serveCount_cons_closeEvt, serveCount_cons_logEvt, serveCount_nil]
  · rcases hres : resolve ss.stat (filepathClean ("/" ++ r.urlPath)) with _ | ⟨q, info⟩
    · exact Or.inl (ServeHTTP_fst_resolveFail ss r hres)
    · cases h2 : ss.readerfn q with
      | none => exact Or.inr (Or.inl (ServeHTTP_fst_openFail ss r q info hres h2))
      | some rds =>
        exact Or.inr (Or.inr ⟨info.name, info.modTime, rds,
          ServeHTTP_fst_served ss r q info rds hres h2⟩)

/-- C3 witness: the empty map backend 404s the root request with one stat,
no open and no serve. -/
theorem claim_C3_witness :
    ((MapSS [] none false).ServeHTTP { urlPath := "/" }).fst
      = invokeHandler (MapSS [] none false).errorHandlers 404 { urlPath := "/" } ∧
    statCount ((MapSS [] none false).ServeHTTP { urlPath := "/" }).snd = 1 ∧
    openCount ((MapSS [] none false).ServeHTTP { urlPath := "/" }).snd = 0 ∧
    serveCount ((MapSS [] none false).ServeHTTP { urlPath := "/" }).snd = 0 :=
  (claim_C3_notFound (MapSS [] none false) { urlPath := "/" }).1 (by decide)

/-- C4: when the cleaned path is a directory and the appended `index.html`
stats successfully but is itself a directory, the 404 handler is invoked
and the request ends after exactly the two stats, with no open and no
serve — no recursion and no directory listing. -/
theorem claim_C4_indexDir (ss : StaticServer) (r : Request)
    (info info2 : FileInfo)
    (h1 : ss.stat (filepathClean ("/" ++ r.urlPath)) = some info)
    (hd : info.isDir = true)
    (h2 : ss.stat (filepathJoin (filepathClean ("/" ++ r.urlPath)) "index.html")
        = some info2)
    (hd2 : info2.isDir = true) :
    (ss.ServeHTTP r).fst = invokeHandler ss.errorHandlers 404 r ∧
    statCount (ss.ServeHTTP r).snd = 2 ∧
    openCount (ss.ServeHTTP r).snd = 0 ∧
    serveCount (ss.ServeHTTP r).snd = 0 := by
  have hres : resolve ss.stat (filepathClean ("/" ++ r.urlPath)) = none := by
    unfold resolve
    rw [h1]
    simp [hd, h2, hd2]
  refine ⟨ServeHTTP_fst_resolveFail ss r hres, ?_, ?_, ?_⟩ <;>
    rw [ServeHTTP_snd_indexDir ss r info info2 h1 hd h2 hd2] <;>
    simp [statCount_append, statCount_logIf, statCount_statCall,
        statCount_cons_statCall, statCount_cons_openCall, statCount_cons_serveEvt,
        statCount_cons_closeEvt, statCount_cons_logEvt, statCount_nil,
        openCount_append, openCount_logIf, openCount_statCall,
        openCount_cons_statCall, openCount_cons_openCall, openCount_cons_serveEvt,
        openCount_cons_closeEvt, openCount_cons_logEvt, openCount_nil,
        serveCount_append, serveCount_logIf, serveCount_statCall,
        serveCount_cons_statCall, serveCount_cons_openCall, serveCount_cons_serveEvt,
        serveCount_cons_closeEvt, serveCount_cons_logEvt, serveCount_nil]

/-- C4 witness: a map whose root `index.html` is itself a directory. -/
theorem claim_C4_witness :
    ((MapSS [("index.html/index.html", "x")] none false).ServeHTTP
        { urlPath := "/" }).fst
      = invokeHandler (MapSS [("index.html/index.html", "x")] none false).errorHandlers
          404 { urlPath := "/" } ∧
    statCount ((MapSS [("index.html/index.html", "x")] none false).ServeHTTP
        { urlPath := "/" }).snd = 2 ∧
    openCount ((MapSS [("index.html/index.html", "x")] none false).ServeHTTP
        { urlPath := "/" }).snd = 0 ∧
    serveCount ((MapSS [("index.html/index.html", "x")] none false).ServeHTTP
        { urlPath := "/" }).snd = 0 :=
  claim_C4_indexDir (MapSS [("index.html/index.html", "x")] none false)
    { urlPath := "/" }
    { name := "/", modTime := 0, isDir := true, size := 0 }
    { name := "index.html", modTime := 0, isDir := true, size := 0 }
    (by decide) (by decide) (by decide) (by decide)

/-- C5 (amended): for the constructors that run `setupErrorHandlers`
(the VFS/OS/map/zip family), a caller-supplied 404/500 handler is the one
installed and invoked verbatim on the corresponding error condition, and
an omitted code — or a nil table — falls back to the default plain-text
handler.  (The original claim also covered `RawStaticServer`, which stores
the caller's table verbatim, so there a nil table gives no handler at all;
see the counterexample.) -/
theorem claim_C5_handlers :
    (∀ mo : Option EHTable,
      lookupHandler (setupErrorHandlers mo) 404
        = some ((mo.bind (fun m => lookupHandler m 404)).getD def404) ∧
      lookupHandler (setupErrorHandlers mo) 500
        = some ((mo.bind (fun m => lookupHandler m 500)).getD def500)) ∧
    (∀ (stat : StatFunc) (rdr : ReaderFunc) (mo : Option EHTable) (lg : Bool)
        (r : Request),
      stat (filepathClean ("/" ++ r.urlPath)) = none →
      ((VFSStaticServer stat rdr mo lg).ServeHTTP r).fst
        = Outcome.ok (((mo.bind (fun m => lookupHandler m 404)).getD def404) r)) ∧
    (∀ (stat : StatFunc) (rdr : ReaderFunc) (mo : Option EHTable) (lg : Bool)
        (r : Request) (q : String) (info : FileInfo),
      resolve stat (filepathClean ("/" ++ r.urlPath)) = some (q, info) →
      rdr q = none →
      ((VFSStaticServer stat rdr mo lg).ServeHTTP r).fst
        = Outcome.ok (((mo.bind (fun m => lookupHandler m 500)).getD def500) r)) := by
  refine ⟨fun mo => ⟨lookup_setup_404 mo, lookup_setup_500 mo⟩, ?_, ?_⟩
  · intro stat rdr mo lg r h1
    rw [ServeHTTP_fst_statFail (VFSStaticServer stat rdr mo lg) r h1]
    unfold invokeHandler
    rw [show (VFSStaticServer stat rdr mo lg).errorHandlers
          = setupErrorHandlers mo from rfl]
    rw [lookup_setup_404 mo]
  · intro stat rdr mo lg r q info hres hopen
    rw [ServeHTTP_fst_openFail (VFSStaticServer stat rdr mo lg) r q info hres hopen]
    unfold invokeHandler
    rw [show (VFSStaticServer stat rdr mo lg).errorHandlers
          = setupErrorHandlers mo from rfl]
    rw [lookup_setup_500 mo]

/-- C5 counterexample: a server built with `RawStaticServer` and a nil
handler table hits a nil handler (Go panic) on a not-found condition — the
default plain-text 404 handler is not invoked, refuting the claim for the
raw constructor. -/
theorem claim_C5_cex :
    ((RawStaticServer (mapfsStat []) (mapfsOpen []) none false).ServeHTTP
        { urlPath := "/" }).fst = Outcome.nilHandlerPanic ∧
    ((RawStaticServer (mapfsStat []) (mapfsOpen []) none false).ServeHTTP
        { urlPath := "/" }).fst
      ≠ Outcome.ok (def404 { urlPath := "/" }) := by
  decide

/-- C5 witness: the custom 404 handler of `TestErrorHandlers` is invoked
verbatim on a not-found condition. -/
theorem claim_C5_witness :
    ((VFSStaticServer (mapfsStat []) (mapfsOpen [])
        (some [(404, customNotFound)]) false).ServeHTTP { urlPath := "/" }).fst
      = Outcome.ok (customNotFound { urlPath := "/" }) :=
  claim_C5_handlers.2.1 (mapfsStat []) (mapfsOpen [])
    (some [(404, customNotFound)]) false { urlPath := "/" } (by decide)

/-- C6: when path resolution succeeds but opening the reader fails, the
500 handler is invoked and `http.ServeContent` is never called. -/
theorem claim_C6_openFail (ss : StaticServer) (r : Request)
    (q : String) (info : FileInfo)
    (hres : resolve ss.stat (filepathClean ("/" ++ r.urlPath)) = some (q, info))
    (hopen : ss.readerfn q = none) :
    (ss.ServeHTTP r).fst = invokeHandler ss.errorHandlers 500 r ∧
    serveCount (ss.ServeHTTP r).snd = 0 := by
  refine ⟨ServeHTTP_fst_openFail ss r q info hres hopen, ?_⟩
  rcases resolve_some_cases ss.stat _ q info hres with
    ⟨h1, hd, hq⟩ | ⟨info0, h1, hd, h2, hd2, hq⟩
  · subst hq
    rw [ServeHTTP_snd_file ss r info h1 hd,
      serveFile_snd_openFail ss r _ info hopen]
    simp [serveCount_append, serveCount_logIf,
      serveCount_cons_statCall, serveCount_cons_openCall, serveCount_cons_serveEvt,
      serveCount_cons_closeEvt, serveCount_cons_logEvt, serveCount_nil]
  · subst hq
    rw [ServeHTTP_snd_dirFile ss r info0 info h1 hd h2 hd2,
      serveFile_snd_openFail ss r _ info hopen]
    simp [serveCount_append, serveCount_logIf,
      serveCount_cons_statCall, serveCount_cons_openCall, serveCount_cons_serveEvt,
      serveCount_cons_closeEvt, serveCount_cons_logEvt, serveCount_nil]

/-- C6 witness: a backend whose stat succeeds but whose open always
fails. -/
theorem claim_C6_witness :
    ((VFSStaticServer
        (fun _ => some { name := "f", modTime := 0, isDir := false, size := 3 })
        (fun _ => none) none false).ServeHTTP { urlPath := "/f" }).fst
      = invokeHandler (VFSStaticServer
          (fun _ => some { name := "f", modTime := 0, isDir := false, size := 3 })
          (fun _ => none) none false).errorHandlers 500 { urlPath := "/f" } ∧
    serveCount ((VFSStaticServer
        (fun _ => some { name := "f", modTime := 0, isDir := false, size := 3 })
        (fun _ => none) none false).ServeHTTP { urlPath := "/f" }).snd = 0 :=
  claim_C6_openFail
    (VFSStaticServer
      (fun _ => some { name := "f", modTime := 0, isDir := false, size := 3 })
      (fun _ => none) none false)
    { urlPath := "/f" } "/f"
    { name := "f", modTime := 0, isDir := false, size := 3 }
    (by decide) (by decide)

/-- C7: when the opened reader is closable, the trace ends with the
`http.ServeContent` dispatch immediately followed by the `Close()` call —
the reader is closed after serving, whatever the serve did, and its
closed state is observable at the end of the request. -/
theorem claim_C7_close (ss : StaticServer) (r : Request)
    (q : String) (info : FileInfo) (rds : Reader)
    (hres : resolve ss.stat (filepathClean ("/" ++ r.urlPath)) = some (q, info))
    (hopen : ss.readerfn q = some rds)
    (hcl : rds.closable = true) :
    ∃ evs, (ss.ServeHTTP r).snd
      = evs ++ [Event.serveContent info.name info.modTime, Event.closeCall] := by
  rcases resolve_some_cases ss.stat _ q info hres with
    ⟨h1, hd, hq⟩ | ⟨info0, h1, hd, h2, hd2, hq⟩
  · subst hq
    rw [ServeHTTP_snd_file ss r info h1 hd,
      serveFile_snd_served ss r _ info rds hopen, hcl]
    refine ⟨logIf ss.logger ("Request for :" ++ r.urlPath)
        ++ [Event.statCall (filepathClean ("/" ++ r.urlPath))]
        ++ [Event.openCall (filepathClean ("/" ++ r.urlPath))]
        ++ logIf ss.logger
          ("Calling ServeContent for:" ++ filepathClean ("/" ++ r.urlPath)), ?_⟩
    simp
  · subst hq
    rw [ServeHTTP_snd_dirFile ss r info0 info h1 hd h2 hd2,
      serveFile_snd_served ss r _ info rds hopen, hcl]
    refine ⟨logIf ss.logger ("Request for :" ++ r.urlPath)
        ++ [Event.statCall (filepathClean ("/" ++ r.urlPath))]
        ++ logIf ss.logger
          ("The requested path was a directory. Trying to find index.html file in it:"
            ++ filepathClean ("/" ++ r.urlPath))
        ++ [Event.statCall (filepathJoin (filepathClean ("/" ++ r.urlPath)) "index.html")]
        ++ [Event.openCall (filepathJoin (filepathClean ("/" ++ r.urlPath)) "index.html")]
        ++ logIf ss.logger
          ("Calling ServeContent for:"
            ++ filepathJoin (filepathClean ("/" ++ r.urlPath)) "index.html"), ?_⟩
    simp

/-- C7 witness: serving a closable reader ends with serve-then-close. -/
theorem claim_C7_witness :
    ∃ evs, ((VFSStaticServer
        (fun _ => some { name := "f", modTime := 0, isDir := false, size := 4 })
        (fun _ => some { content := "text", closable := true })
        none false).ServeHTTP { urlPath := "/f" }).snd
      = evs ++ [Event.serveContent "f" 0, Event.closeCall] :=
  claim_C7_close
    (VFSStaticServer
      (fun _ => some { name := "f", modTime := 0, isDir := false, size := 4 })
      (fun _ => some { content := "text", closable := true }) none false)
    { urlPath := "/f" } "/f"
    { name := "f", modTime := 0, isDir := false, size := 4 }
    { content := "text", closable := true }
    (by decide) (by decide) (by decide)

/-- C8 counterexample: on a not-found request (empty backend, request
`/`) no reader is opened at all, refuting "exactly one reader is opened
per request" for every outcome. -/
theorem claim_C8_cex :
    openCount ((MapSS [] none false).ServeHTTP { urlPath := "/" }).snd ≠ 1 := by
  decide

/-- C8 (amended): at most one reader is opened per request — exactly one
when path resolution succeeds (success or internal-error outcome) and
zero when it fails (not-found outcome). -/
theorem claim_C8_amended (ss : StaticServer) (r : Request) :
    openCount (ss.ServeHTTP r).snd ≤ 1 ∧
    openCount (ss.ServeHTTP r).snd =
      (if (resolve ss.stat (filepathClean ("/" ++ r.urlPath))).isSome then 1
       else 0) := by
  refine ⟨?_, openCount_ServeHTTP ss r⟩
  rw [openCount_ServeHTTP ss r]
  split <;> simp

/-- C9: the observable response of a request is identical whether the
diagnostic logger is set or not — logging has no effect on behaviour. -/
theorem claim_C9_logger (stat : StatFunc) (rdr : ReaderFunc) (eh : EHTable)
    (r : Request) (b1 b2 : Bool) :
    ((StaticServer.mk stat rdr eh b1).ServeHTTP r).fst
      = ((StaticServer.mk stat rdr eh b2).ServeHTTP r).fst := by
  rw [ServeHTTP_fst_eq, ServeHTTP_fst_eq]

/-- C10: for every non-nil caller-supplied map, the installed table has
entries for exactly the codes 404 and 500; a handler supplied for any
other code is dropped and can never be looked up. -/
theorem claim_C10_keys (m : EHTable) :
    (setupErrorHandlers (some m)).map Prod.fst = [404, 500] ∧
    ∀ c : Nat, c ≠ 404 → c ≠ 500 →
      lookupHandler (setupErrorHandlers (some m)) c = none := by
  constructor
  · cases hm4 : lookupHandler m 404 <;> cases hm5 : lookupHandler m 500 <;>
      simp [setupErrorHandlers, defaultErrorHandlers, hm4, hm5]
  · intro c h4 h5
    have h4' : ¬(404 = c) := fun h => h4 h.symm
    have h5' : ¬(500 = c) := fun h => h5 h.symm
    cases hm4 : lookupHandler m 404 <;> cases hm5 : lookupHandler m 500 <;>
      simp [setupErrorHandlers, defaultErrorHandlers, lookupHandler,
        hm4, hm5, h4', h5']

/-- C10 witness: a caller-supplied 403 handler is silently dropped. -/
theorem claim_C10_witness :
    (setupErrorHandlers (some [(403, customNotFound)])).map Prod.fst = [404, 500] ∧
    lookupHandler (setupErrorHandlers (some [(403, customNotFound)])) 403 = none :=
  ⟨(claim_C10_keys [(403, customNotFound)]).1,
   (claim_C10_keys [(403, customNotFound)]).2 403 (by decide) (by decide)⟩
